import Mathlib

/-!
Verification development for the fswatch-sys Rust binding
(src/lib.rs, src/ffi.rs).  The foreign library (libfswatch) and the
pieces of the Rust standard library that the binding uses (CString,
String::from_utf8_lossy, mpsc channels) are external collaborators;
they are modelled by their documented interfaces: an environment that
assigns a status code to every foreign call, a byte-level model of the
C-string conversion, and a FIFO queue model of the channel.  Every
wrapper function of the binding itself is translated line by line.
-/

namespace Fsw

/-! ### ffi.rs: status constants (src/ffi.rs lines 52-69) -/

/-- FSW_STATUS is a C int; modelled as Int. -/
abbrev FSW_STATUS := Int

abbrev FSW_HANDLE := Int

def FSW_INVALID_HANDLE : FSW_HANDLE := -1

def FSW_OK : FSW_STATUS := 0

def FSW_ERR_UNKNOWN_ERROR : FSW_STATUS := 1 <<< 0

def FSW_ERR_SESSION_UNKNOWN : FSW_STATUS := 1 <<< 1

def FSW_ERR_MONITOR_ALREADY_EXISTS : FSW_STATUS := 1 <<< 2

def FSW_ERR_MEMORY : FSW_STATUS := 1 <<< 3

def FSW_ERR_UNKNOWN_MONITOR_TYPE : FSW_STATUS := 1 <<< 4

def FSW_ERR_CALLBACK_NOT_SET : FSW_STATUS := 1 <<< 5

def FSW_ERR_PATHS_NOT_SET : FSW_STATUS := 1 <<< 6

def FSW_ERR_MISSING_CONTEXT : FSW_STATUS := 1 <<< 7

def FSW_ERR_INVALID_PATH : FSW_STATUS := 1 <<< 8

def FSW_ERR_INVALID_CALLBACK : FSW_STATUS := 1 <<< 9

def FSW_ERR_INVALID_LATENCY : FSW_STATUS := 1 <<< 10

def FSW_ERR_INVALID_REGEX : FSW_STATUS := 1 <<< 11

def FSW_ERR_MONITOR_ALREADY_RUNNING : FSW_STATUS := 1 <<< 12

def FSW_ERR_UNKNOWN_VALUE : FSW_STATUS := 1 <<< 13

def FSW_ERR_INVALID_PROPERTY : FSW_STATUS := 1 <<< 14

/-! ### lib.rs: FswStatus and the From conversion (src/lib.rs lines 41-88) -/

/-- Status codes from fswatch (src/lib.rs lines 41-61). -/
inductive FswStatus
  | Ok
  | UnknownError
  | SessionUnknown
  | MonitorAlreadyExists
  | Memory
  | UnknownMonitorType
  | CallbackNotSet
  | PathsNotSet
  | MissingContext
  | InvalidPath
  | InvalidCallback
  | InvalidLatency
  | InvalidRegex
  | MonitorAlreadyRunning
  | UnknownValue
  | InvalidProprety
deriving DecidableEq, Repr

/-- The From conversion impl From for FswStatus (src/lib.rs lines 63-88).
The source is a match whose arms test the ffi constants in order, ending
with the catch-all arm FSW_ERR_UNKNOWN_ERROR | _ => UnknownError; the
Rust integer match is rendered as the same chain of equality tests. -/
def FswStatus.fromStatus (status : FSW_STATUS) : FswStatus :=
  if status = FSW_OK then .Ok
  else if status = FSW_ERR_SESSION_UNKNOWN then .SessionUnknown
  else if status = FSW_ERR_MONITOR_ALREADY_EXISTS then .MonitorAlreadyExists
  else if status = FSW_ERR_MEMORY then .Memory
  else if status = FSW_ERR_UNKNOWN_MONITOR_TYPE then .UnknownMonitorType
  else if status = FSW_ERR_CALLBACK_NOT_SET then .CallbackNotSet
  else if status = FSW_ERR_PATHS_NOT_SET then .PathsNotSet
  else if status = FSW_ERR_MISSING_CONTEXT then .MissingContext
  else if status = FSW_ERR_INVALID_PATH then .InvalidPath
  else if status = FSW_ERR_INVALID_CALLBACK then .InvalidCallback
  else if status = FSW_ERR_INVALID_LATENCY then .InvalidLatency
  else if status = FSW_ERR_INVALID_REGEX then .InvalidRegex
  else if status = FSW_ERR_MONITOR_ALREADY_RUNNING then .MonitorAlreadyRunning
  else if status = FSW_ERR_UNKNOWN_VALUE then .UnknownValue
  else if status = FSW_ERR_INVALID_PROPERTY then .InvalidProprety
  else .UnknownError

/-! ### Text conversion model

add_path converts a Path with to_string_lossy (String::from_utf8_lossy
over the raw bytes) and then builds a CString.  Bytes are modelled as
Nat, strings as byte lists.  The decoder below follows the WHATWG /
Rust std semantics: well-formed UTF-8 sequences are kept verbatim, an
ill-formed maximal subpart is replaced by one replacement character
(bytes EF BF BD). -/

/-- Is the byte a UTF-8 continuation byte (0x80..=0xBF)? -/
def isCont (b : Nat) : Bool := 0x80 ≤ b && b ≤ 0xBF

/-- Step for a 3-byte leader: the allowed first-continuation range
depends on the leader; returns (well-formed?, bytes consumed). -/
def stepTail2 (lo hi : Nat) : List Nat → Bool × Nat
  | c1 :: c2 :: _ =>
      if lo ≤ c1 && c1 ≤ hi then
        if isCont c2 then (true, 3) else (false, 2)
      else (false, 1)
  | [c1] => if lo ≤ c1 && c1 ≤ hi then (false, 2) else (false, 1)
  | [] => (false, 1)

/-- Step for a 4-byte leader: the allowed first-continuation range
depends on the leader; returns (well-formed?, bytes consumed). -/
def stepTail3 (lo hi : Nat) : List Nat → Bool × Nat
  | c1 :: c2 :: c3 :: _ =>
      if lo ≤ c1 && c1 ≤ hi then
        if isCont c2 then
          if isCont c3 then (true, 4) else (false, 3)
        else (false, 2)
      else (false, 1)
  | [c1, c2] =>
      if lo ≤ c1 && c1 ≤ hi then
        if isCont c2 then (false, 3) else (false, 2)
      else (false, 1)
  | [c1] => if lo ≤ c1 && c1 ≤ hi then (false, 2) else (false, 1)
  | [] => (false, 1)

/-- Decode one minimal unit at the front of a byte list: (true, n) means
the first n bytes are one well-formed scalar value; (false, n) means the
first n bytes are an ill-formed maximal subpart to be replaced. -/
def utf8Step : List Nat → Bool × Nat
  | [] => (true, 0)
  | b :: rest =>
      if b ≤ 0x7F then (true, 1)
      else if 0xC2 ≤ b && b ≤ 0xDF then
        (match rest with
         | c1 :: _ => if isCont c1 then (true, 2) else (false, 1)
         | [] => (false, 1))
      else if b = 0xE0 then stepTail2 0xA0 0xBF rest
      else if 0xE1 ≤ b && b ≤ 0xEC then stepTail2 0x80 0xBF rest
      else if b = 0xED then stepTail2 0x80 0x9F rest
      else if 0xEE ≤ b && b ≤ 0xEF then stepTail2 0x80 0xBF rest
      else if b = 0xF0 then stepTail3 0x90 0xBF rest
      else if 0xF1 ≤ b && b ≤ 0xF3 then stepTail3 0x80 0xBF rest
      else if b = 0xF4 then stepTail3 0x80 0x8F rest
      else (false, 1)

/-- String::from_utf8_lossy, fuelled so that it computes by kernel
reduction; the fuel is the list length, which always suffices because
each step consumes at least one byte. -/
def utf8LossyGo : Nat → List Nat → List Nat
  | 0, _ => []
  | _ + 1, [] => []
  | fuel + 1, b :: rest =>
      if (utf8Step (b :: rest)).1 then
        (b :: rest).take (utf8Step (b :: rest)).2 ++
          utf8LossyGo fuel (rest.drop ((utf8Step (b :: rest)).2 - 1))
      else
        0xEF :: 0xBF :: 0xBD ::
          utf8LossyGo fuel (rest.drop ((utf8Step (b :: rest)).2 - 1))

/-- String::from_utf8_lossy / Path::to_string_lossy over raw bytes. -/
def utf8Lossy (p : List Nat) : List Nat := utf8LossyGo p.length p

/-- UTF-8 well-formedness of a byte list, with the same unit
decomposition as the lossy decoder. -/
def validUtf8Go : Nat → List Nat → Bool
  | 0, l => l.isEmpty
  | _ + 1, [] => true
  | fuel + 1, b :: rest =>
      (utf8Step (b :: rest)).1 &&
        validUtf8Go fuel (rest.drop ((utf8Step (b :: rest)).2 - 1))

/-- UTF-8 well-formedness of a byte list. -/
def validUtf8 (p : List Nat) : Bool := validUtf8Go p.length p

/-- CString::new: fails exactly when the byte sequence contains an
embedded NUL; otherwise yields the same bytes. -/
def cstringNew (bytes : List Nat) : Option (List Nat) :=
  if (0 : Nat) ∈ bytes then none else some bytes

/-! ### lib.rs: data types (src/lib.rs lines 22-168) -/

/-- An error in the library (src/lib.rs lines 23-31).  NulError carries
the offending byte sequence of the rejected C string. -/
inductive FswError
  | FromFsw (s : FswStatus)
  | NulError (bytes : List Nat)
  | MissingRequiredParameters
deriving DecidableEq, Repr

/-- The possible monitors (src/lib.rs lines 91-101). -/
inductive FswMonitorType
  | SystemDefault
  | FSEvents
  | KQueue
  | INotify
  | Windows
  | Poll
  | Fen
deriving DecidableEq, Repr

/-- Flags denoting the operation(s) within an event
(src/lib.rs lines 104-122). -/
inductive FswEventFlag
  | NoOp
  | PlatformSpecific
  | Created
  | Updated
  | Removed
  | Renamed
  | OwnerModified
  | AttributeModified
  | MovedFrom
  | MovedTo
  | IsFile
  | IsDir
  | IsSymLink
  | Link
  | Overflow
deriving DecidableEq, Repr, Fintype

/-- The repr(u32) discriminants assigned to FswEventFlag in the source
(src/lib.rs lines 106-122): NoOp = 0, PlatformSpecific = 1, then the
single bits 1 shifted left by 1 through 13. -/
def FswEventFlag.bits : FswEventFlag → Nat
  | .NoOp => 0
  | .PlatformSpecific => 1
  | .Created => 1 <<< 1
  | .Updated => 1 <<< 2
  | .Removed => 1 <<< 3
  | .Renamed => 1 <<< 4
  | .OwnerModified => 1 <<< 5
  | .AttributeModified => 1 <<< 6
  | .MovedFrom => 1 <<< 7
  | .MovedTo => 1 <<< 8
  | .IsFile => 1 <<< 9
  | .IsDir => 1 <<< 10
  | .IsSymLink => 1 <<< 11
  | .Link => 1 <<< 12
  | .Overflow => 1 <<< 13

/-- A filter type (src/lib.rs lines 148-153). -/
inductive FswFilterType
  | Include
  | Exclude
deriving DecidableEq, Repr

/-- A monitor filter (src/lib.rs lines 124-134); the pattern text is a
byte list. -/
structure FswMonitorFilter where
  text : List Nat
  filter_type : FswFilterType
  case_sensitive : Bool
  extended : Bool
deriving DecidableEq, Repr

/-- An owned event from fswatch (src/lib.rs lines 160-168); the path
String is a byte list, evt_time an i64. -/
structure FswEvent where
  path : List Nat
  evt_time : Int
  flags : List FswEventFlag
deriving DecidableEq, Repr

/-- A foreign event record as handed to the trampoline by libfswatch
(src/ffi.rs lines 86-93); path holds the bytes of the C string. -/
structure fsw_cevent where
  path : List Nat
  evt_time : Int
  flags : List FswEventFlag
deriving DecidableEq, Repr

/-! ### The foreign-call model

Every unsafe foreign call the binding can make is recorded as one
constructor.  The c_double latency is only ever passed through opaquely
by the binding, so it is carried as an opaque token (Int). -/

/-- One foreign call with its arguments (the extern block of
src/ffi.rs lines 9-43, minus the process-global entry points that no
claim touches). -/
inductive FCall
  | initSession (monitor_type : FswMonitorType)
  | addPath (handle : FSW_HANDLE) (path : List Nat)
  | addProperty (handle : FSW_HANDLE) (name value : List Nat)
  | setAllowOverflow (handle : FSW_HANDLE) (allow_overflow : Bool)
  | setCallback (handle : FSW_HANDLE)
  | setLatency (handle : FSW_HANDLE) (latency : Int)
  | setRecursive (handle : FSW_HANDLE) (recursive : Bool)
  | setDirectoryOnly (handle : FSW_HANDLE) (directory_only : Bool)
  | setFollowSymlinks (handle : FSW_HANDLE) (follow_symlinks : Bool)
  | addEventTypeFilter (handle : FSW_HANDLE) (flag : FswEventFlag)
  | addFilter (handle : FSW_HANDLE) (text : List Nat)
      (filter_type : FswFilterType) (case_sensitive extended : Bool)
  | startMonitor (handle : FSW_HANDLE)
  | destroySession (handle : FSW_HANDLE)
deriving DecidableEq, Repr

/-- The foreign library as a black box: fsw_init_session yields a
handle from the requested monitor type; every other call yields a
status code that may depend on the full history of prior calls and on
the call itself. -/
structure FswEnv where
  initSession : FswMonitorType → FSW_HANDLE
  status : List FCall → FCall → FSW_STATUS

/-! ### lib.rs: FswSession (src/lib.rs lines 361-568)

Each wrapper method is translated with an explicit environment and the
trace of foreign calls made so far; it returns its Rust result, the
list of foreign calls it emitted, and the session (the source mutates
the two Cell flags through a shared reference). -/

/-- A session in fswatch (src/lib.rs lines 361-366). -/
structure FswSession where
  handle : FSW_HANDLE
  callback_set : Bool
  path_added : Bool
deriving DecidableEq, Repr

/-- Is a result the ok variant (Result::is_ok)? -/
def resultOk {α : Type} : Except FswError α → Bool
  | .ok _ => true
  | .error _ => false

/-- FswSession::map_result (src/lib.rs lines 407-413). -/
def map_result {α : Type} (ret : α) (result : FSW_STATUS) : Except FswError α :=
  match FswStatus.fromStatus result with
  | .Ok => .ok ret
  | s => .error (.FromFsw s)

/-- FswSession::new (src/lib.rs lines 370-380): one fsw_init_session
call; UnknownError if the handle is the invalid sentinel. -/
def FswSession.new (env : FswEnv) (monitor_type : FswMonitorType) :
    Except FswError FswSession × List FCall :=
  let handle := env.initSession monitor_type
  if handle = FSW_INVALID_HANDLE then
    (.error (.FromFsw .UnknownError), [FCall.initSession monitor_type])
  else
    (.ok ⟨handle, false, false⟩, [FCall.initSession monitor_type])

/-- FswSession::add_path (src/lib.rs lines 416-425): lossy text
conversion, CString::new (NulError on failure), one fsw_add_path call,
and the path_added flag is set exactly when the result is ok. -/
def FswSession.add_path (env : FswEnv) (tr : List FCall) (s : FswSession)
    (path : List Nat) : Except FswError Unit × List FCall × FswSession :=
  let path1 := utf8Lossy path
  match cstringNew path1 with
  | none => (.error (.NulError path1), [], s)
  | some c_path =>
      let call := FCall.addPath s.handle c_path
      let res : Except FswError Unit := map_result () (env.status tr call)
      if resultOk res then (res, [call], { s with path_added := true })
      else (res, [call], s)

/-- FswSession::add_property (src/lib.rs lines 428-433): CString::new
on the name, then on the value, then one fsw_add_property call. -/
def FswSession.add_property (env : FswEnv) (tr : List FCall) (s : FswSession)
    (name value : List Nat) : Except FswError Unit × List FCall × FswSession :=
  match cstringNew name with
  | none => (.error (.NulError name), [], s)
  | some c_name =>
      match cstringNew value with
      | none => (.error (.NulError value), [], s)
      | some c_value =>
          let call := FCall.addProperty s.handle c_name c_value
          (map_result () (env.status tr call), [call], s)

/-- FswSession::set_allow_overflow (src/lib.rs lines 436-439). -/
def FswSession.set_allow_overflow (env : FswEnv) (tr : List FCall)
    (s : FswSession) (allow_overflow : Bool) :
    Except FswError Unit × List FCall × FswSession :=
  let call := FCall.setAllowOverflow s.handle allow_overflow
  (map_result () (env.status tr call), [call], s)

/-- FswSession::set_callback (src/lib.rs lines 467-478): the closure is
double-boxed into the opaque context pointer of one fsw_set_callback
call (the closure itself is modelled where its body matters, in the
iterator adapter); the callback_set flag is set exactly when the result
is ok. -/
def FswSession.set_callback (env : FswEnv) (tr : List FCall) (s : FswSession) :
    Except FswError Unit × List FCall × FswSession :=
  let call := FCall.setCallback s.handle
  let res : Except FswError Unit := map_result () (env.status tr call)
  if resultOk res then (res, [call], { s with callback_set := true })
  else (res, [call], s)

/-- FswSession::set_latency (src/lib.rs lines 481-484). -/
def FswSession.set_latency (env : FswEnv) (tr : List FCall) (s : FswSession)
    (latency : Int) : Except FswError Unit × List FCall × FswSession :=
  let call := FCall.setLatency s.handle latency
  (map_result () (env.status tr call), [call], s)

/-- FswSession::set_recursive (src/lib.rs lines 487-490). -/
def FswSession.set_recursive (env : FswEnv) (tr : List FCall) (s : FswSession)
    (recursive : Bool) : Except FswError Unit × List FCall × FswSession :=
  let call := FCall.setRecursive s.handle recursive
  (map_result () (env.status tr call), [call], s)

/-- FswSession::set_directory_only (src/lib.rs lines 493-496). -/
def FswSession.set_directory_only (env : FswEnv) (tr : List FCall)
    (s : FswSession) (directory_only : Bool) :
    Except FswError Unit × List FCall × FswSession :=
  let call := FCall.setDirectoryOnly s.handle directory_only
  (map_result () (env.status tr call), [call], s)

/-- FswSession::set_follow_symlinks (src/lib.rs lines 499-502). -/
def FswSession.set_follow_symlinks (env : FswEnv) (tr : List FCall)
    (s : FswSession) (follow_symlinks : Bool) :
    Except FswError Unit × List FCall × FswSession :=
  let call := FCall.setFollowSymlinks s.handle follow_symlinks
  (map_result () (env.status tr call), [call], s)

/-- FswSession::add_event_type_filter (src/lib.rs lines 505-511). -/
def FswSession.add_event_type_filter (env : FswEnv) (tr : List FCall)
    (s : FswSession) (event_type : FswEventFlag) :
    Except FswError Unit × List FCall × FswSession :=
  let call := FCall.addEventTypeFilter s.handle event_type
  (map_result () (env.status tr call), [call], s)

/-- FswSession::add_filter (src/lib.rs lines 514-524): CString::new on
the pattern text, then one fsw_add_filter call. -/
def FswSession.add_filter (env : FswEnv) (tr : List FCall) (s : FswSession)
    (filter : FswMonitorFilter) :
    Except FswError Unit × List FCall × FswSession :=
  match cstringNew filter.text with
  | none => (.error (.NulError filter.text), [], s)
  | some c_text =>
      let call := FCall.addFilter s.handle c_text filter.filter_type
        filter.case_sensitive filter.extended
      (map_result () (env.status tr call), [call], s)

/-- FswSession::_start_monitor (src/lib.rs lines 556-559). -/
def FswSession._start_monitor (env : FswEnv) (tr : List FCall)
    (s : FswSession) : Except FswError Unit × List FCall × FswSession :=
  let call := FCall.startMonitor s.handle
  (map_result () (env.status tr call), [call], s)

/-- FswSession::start_monitor (src/lib.rs lines 536-541): guarded by
the two flags; the distinguished error is returned with no foreign
call when either flag is unset. -/
def FswSession.start_monitor (env : FswEnv) (tr : List FCall)
    (s : FswSession) : Except FswError Unit × List FCall × FswSession :=
  if !s.callback_set || !s.path_added then
    (.error .MissingRequiredParameters, [], s)
  else
    FswSession._start_monitor env tr s

/-- FswSession::start_monitor_unchecked (src/lib.rs lines 552-554). -/
def FswSession.start_monitor_unchecked (env : FswEnv) (tr : List FCall)
    (s : FswSession) : Except FswError Unit × List FCall × FswSession :=
  FswSession._start_monitor env tr s

/-- FswSession::destroy_session (src/lib.rs lines 564-567). -/
def FswSession.destroy_session (env : FswEnv) (tr : List FCall)
    (s : FswSession) : Except FswError Unit × List FCall × FswSession :=
  let call := FCall.destroySession s.handle
  (map_result () (env.status tr call), [call], s)

/-- Drop for FswSession (src/lib.rs lines 579-585): destroy_session is
called and its result discarded; only the emitted foreign call
remains observable. -/
def FswSession.dropSession (env : FswEnv) (tr : List FCall)
    (s : FswSession) : List FCall :=
  (FswSession.destroy_session env tr s).2.1

/-! ### lib.rs: FswSessionBuilder (src/lib.rs lines 200-355)

The builder holds pending configuration only; build is the sequence of
session calls of src/lib.rs lines 249-279, each followed by the Rust ?
operator.  Sequencing a fallible configuration step with ? is captured
by stageComp, and a for loop of such steps by applyAll.  HashMap
iteration order is not defined, so properties is carried as the pair
list that iteration yields. -/

/-- A configuration step: from the trace so far and the session, the
Rust result, the foreign calls emitted, and the session after. -/
abbrev Stage := List FCall → FswSession → Except FswError Unit × List FCall × FswSession

/-- Sequencing of two steps with the ? operator: the second step runs
only when the first returns Ok, and sees the extended trace. -/
def stageComp (st1 st2 : Stage) : Stage := fun tr s =>
  match st1 tr s with
  | (.ok _, em, s1) =>
      let r := st2 (tr ++ em) s1
      (r.1, em ++ r.2.1, r.2.2)
  | (.error e, em, s1) => (.error e, em, s1)

/-- A for loop over xs whose body is a fallible step followed by ?. -/
def applyAll {α : Type} (stageOf : α → Stage) : List α → Stage
  | [] => fun _ s => (.ok (), [], s)
  | x :: xs => stageComp (stageOf x) (applyAll stageOf xs)

/-- A step that does nothing (an if let whose option is None). -/
def skipStage : Stage := fun _ s => (.ok (), [], s)

/-- An if let Some(v) = o step (src/lib.rs lines 257-271). -/
def optStage {α : Type} (o : Option α) (f : α → Stage) : Stage :=
  match o with
  | none => skipStage
  | some v => f v

/-- A builder for FswSession (src/lib.rs lines 200-212). -/
structure FswSessionBuilder where
  paths : List (List Nat)
  monitor_type : FswMonitorType
  properties : List (List Nat × List Nat)
  overflow : Option Bool
  latency : Option Int
  recursive : Option Bool
  directory_only : Option Bool
  follow_symlinks : Option Bool
  event_type_filters : List FswEventFlag
  filters : List FswMonitorFilter
deriving DecidableEq, Repr

/-- The configuration body of FswSessionBuilder::build (src/lib.rs
lines 251-277): each path, each property, the five optional settings,
each event-type filter, each path filter, in that order, every step
followed by ?. -/
def buildStage (env : FswEnv) (b : FswSessionBuilder) : Stage :=
  stageComp (applyAll (fun p tr s => FswSession.add_path env tr s p) b.paths)
  (stageComp (applyAll (fun nv tr s => FswSession.add_property env tr s nv.1 nv.2) b.properties)
  (stageComp (optStage b.overflow (fun v tr s => FswSession.set_allow_overflow env tr s v))
  (stageComp (optStage b.latency (fun v tr s => FswSession.set_latency env tr s v))
  (stageComp (optStage b.recursive (fun v tr s => FswSession.set_recursive env tr s v))
  (stageComp (optStage b.directory_only (fun v tr s => FswSession.set_directory_only env tr s v))
  (stageComp (optStage b.follow_symlinks (fun v tr s => FswSession.set_follow_symlinks env tr s v))
  (stageComp (applyAll (fun f tr s => FswSession.add_event_type_filter env tr s f) b.event_type_filters)
  (applyAll (fun f tr s => FswSession.add_filter env tr s f) b.filters))))))))

/-- FswSessionBuilder::build (src/lib.rs lines 249-279): acquire the
session with FswSession::new, run the configuration steps, return the
session on success; the first error is propagated by ?. -/
def FswSessionBuilder.build (env : FswEnv) (b : FswSessionBuilder)
    (tr : List FCall) : Except FswError FswSession × List FCall :=
  match FswSession.new env b.monitor_type with
  | (.error e, em) => (.error e, em)
  | (.ok s0, em) =>
      let r := buildStage env b (tr ++ em) s0
      match r.1 with
      | .error e => (.error e, em ++ r.2.1)
      | .ok _ => (.ok r.2.2, em ++ r.2.1)

/-! ### Reference plan of build

To state the fixed-order claim, the builder's pending configuration is
compiled to a plan: a list of steps, each being either one foreign
call or a text conversion that is bound to fail on an embedded NUL.
okCalls lists the foreign calls the plan can reach, and runPSteps is
the generic run-in-order, stop-at-first-failure executor the build is
proved to refine. -/

/-- One planned configuration step: a foreign call, or a C-string
conversion that fails (NulError) on the given bytes. -/
inductive PStep
  | call (c : FCall)
  | nulText (bytes : List Nat)
deriving DecidableEq, Repr

/-- The foreign calls a plan performs when every step succeeds,
truncated at the first conversion failure. -/
def okCalls : List PStep → List FCall
  | [] => []
  | .call c :: r => c :: okCalls r
  | .nulText _ :: _ => []

/-- Does the plan consist of foreign calls only (no doomed conversion)? -/
def allCallSteps : List PStep → Bool
  | [] => true
  | .call _ :: r => allCallSteps r
  | .nulText _ :: _ => false

/-- Did every listed foreign call succeed, each judged against the
trace that precedes it? -/
def stepsOk (env : FswEnv) : List FCall → List FCall → Bool
  | _, [] => true
  | tr, c :: cs =>
      decide (FswStatus.fromStatus (env.status tr c) = .Ok)
        && stepsOk env (tr ++ [c]) cs

/-- Run a plan in order, stopping at the first failure: a doomed
conversion yields its NulError with no foreign call; a foreign call
with a non-Ok status yields the mapped error and nothing after it. -/
def runPSteps (env : FswEnv) (tr : List FCall) :
    List PStep → Except FswError Unit × List FCall
  | [] => (.ok (), [])
  | .nulText bs :: _ => (.error (.NulError bs), [])
  | .call c :: rest =>
      if FswStatus.fromStatus (env.status tr c) = .Ok then
        let r := runPSteps env (tr ++ [c]) rest
        (r.1, c :: r.2)
      else (.error (.FromFsw (FswStatus.fromStatus (env.status tr c))), [c])

/-- Plan of one add_path step. -/
def pathPlan (p : List Nat) (h : FSW_HANDLE) : List PStep :=
  if (0 : Nat) ∈ utf8Lossy p then [.nulText (utf8Lossy p)]
  else [.call (.addPath h (utf8Lossy p))]

/-- Plan of one add_property step. -/
def propPlan (nv : List Nat × List Nat) (h : FSW_HANDLE) : List PStep :=
  if (0 : Nat) ∈ nv.1 then [.nulText nv.1]
  else if (0 : Nat) ∈ nv.2 then [.nulText nv.2]
  else [.call (.addProperty h nv.1 nv.2)]

/-- Plan of one add_filter step. -/
def filterPlan (f : FswMonitorFilter) (h : FSW_HANDLE) : List PStep :=
  if (0 : Nat) ∈ f.text then [.nulText f.text]
  else [.call (.addFilter h f.text f.filter_type f.case_sensitive f.extended)]

/-- Plan of an optional setting. -/
def optPlan {α : Type} (o : Option α) (f : α → List PStep) : List PStep :=
  match o with
  | none => []
  | some v => f v

/-- Concatenated per-element plans. -/
def joinPlans {α : Type} (planOf : α → FSW_HANDLE → List PStep)
    (xs : List α) (h : FSW_HANDLE) : List PStep :=
  match xs with
  | [] => []
  | x :: r => planOf x h ++ joinPlans planOf r h

/-- The full plan of the configuration body of build, in the fixed
source order. -/
def buildPlan (b : FswSessionBuilder) (h : FSW_HANDLE) : List PStep :=
  joinPlans pathPlan b.paths h ++
  (joinPlans propPlan b.properties h ++
  (optPlan b.overflow (fun v => [.call (.setAllowOverflow h v)]) ++
  (optPlan b.latency (fun v => [.call (.setLatency h v)]) ++
  (optPlan b.recursive (fun v => [.call (.setRecursive h v)]) ++
  (optPlan b.directory_only (fun v => [.call (.setDirectoryOnly h v)]) ++
  (optPlan b.follow_symlinks (fun v => [.call (.setFollowSymlinks h v)]) ++
  ((joinPlans (fun f h => [.call (.addEventTypeFilter h f)]) b.event_type_filters h) ++
  joinPlans filterPlan b.filters h)))))))

/-- A configuration step refines a plan: same result, same emitted
calls, and the session's handle and callback flag pass through. -/
def StageSim (env : FswEnv) (stage : Stage) (plan : FSW_HANDLE → List PStep) : Prop :=
  ∀ tr s,
    (stage tr s).1 = (runPSteps env tr (plan s.handle)).1 ∧
    (stage tr s).2.1 = (runPSteps env tr (plan s.handle)).2 ∧
    (stage tr s).2.2.handle = s.handle ∧
    (stage tr s).2.2.callback_set = s.callback_set

/-! ### lib.rs: callback marshaling and the iterator adapter
(src/lib.rs lines 441-456 and 587-663)

The mpsc channel is modelled as a FIFO buffer plus a producer-alive
flag; Receiver::recv yields the front item, reports closure when the
buffer is empty and the producer is gone, and otherwise blocks (the
blocked outcome marks the state in which the real call suspends). -/

/-- The event channel between the internal callback (producer) and the
iterator (consumer). -/
structure Channel where
  buf : List FswEvent
  senderAlive : Bool
deriving DecidableEq, Repr

/-- Outcome of Receiver::recv. -/
inductive RecvOut
  | item (e : FswEvent)
  | closed
  | blocked
deriving DecidableEq, Repr

/-- Receiver::recv of std::sync::mpsc: already-buffered items are
yielded in FIFO order even after the sender is gone; the Err (closed)
outcome needs an empty buffer and a dead producer; an empty buffer
with a live producer blocks. -/
def Channel.recv (ch : Channel) : RecvOut × Channel :=
  match ch.buf with
  | e :: rest => (.item e, { ch with buf := rest })
  | [] => if ch.senderAlive then (.blocked, ch) else (.closed, ch)

/-- Sender::send: appends to the FIFO buffer. -/
def Channel.send (ch : Channel) (e : FswEvent) : Channel :=
  { ch with buf := ch.buf ++ [e] }

/-- FswSession::callback_wrapper (src/lib.rs lines 441-456): the
trampoline views the foreign buffer as a slice and copies each event's
path (through CStr::to_string_lossy), timestamp and flag slice into an
owned FswEvent, preserving order and count. -/
def FswSession.callback_wrapper (events : List fsw_cevent) : List FswEvent :=
  events.map fun x =>
    { path := utf8Lossy x.path, evt_time := x.evt_time, flags := x.flags }

/-- The closure installed by FswSessionIterator::adapt_session
(src/lib.rs lines 635-639): each received event is sent onto the
channel, one at a time, in order. -/
def iterCallback (events : List FswEvent) (ch : Channel) : Channel :=
  events.foldl Channel.send ch

/-- An iterator over the events reported by an FswSession
(src/lib.rs lines 606-611). -/
structure FswSessionIterator where
  session : Option FswSession
  rx : Channel
  started : Bool
deriving DecidableEq, Repr

/-- FswSessionIterator::adapt_session (src/lib.rs lines 634-640):
installs the channel-forwarding callback via set_callback. -/
def FswSessionIterator.adapt_session (env : FswEnv) (tr : List FCall)
    (s : FswSession) : Except FswError Unit × List FCall × FswSession :=
  FswSession.set_callback env tr s

/-- FswSessionIterator::create (src/lib.rs lines 626-632). -/
def FswSessionIterator.create (s : FswSession) (rx : Channel) :
    FswSessionIterator :=
  ⟨some s, rx, false⟩

/-- FswSessionIterator::new (src/lib.rs lines 614-618): a fresh empty
channel, adapt_session followed by ?, then create. -/
def FswSessionIterator.new (env : FswEnv) (tr : List FCall)
    (s : FswSession) : Except FswError FswSessionIterator × List FCall :=
  let r := FswSessionIterator.adapt_session env tr s
  match r.1 with
  | .error e => (.error e, r.2.1)
  | .ok _ => (.ok (FswSessionIterator.create r.2.2 ⟨[], true⟩), r.2.1)

/-- FswSessionIterator::assume_new (src/lib.rs lines 620-624): like
new, except the result of adapt_session is bound to the wildcard
(let _ =) and dropped, so an iterator is produced unconditionally. -/
def FswSessionIterator.assume_new (env : FswEnv) (tr : List FCall)
    (s : FswSession) : FswSessionIterator × List FCall :=
  let r := FswSessionIterator.adapt_session env tr s
  (FswSessionIterator.create r.2.2 ⟨[], true⟩, r.2.1)

/-- IntoIterator for FswSession (src/lib.rs lines 570-577). -/
def FswSession.into_iter (env : FswEnv) (tr : List FCall)
    (s : FswSession) : FswSessionIterator × List FCall :=
  FswSessionIterator.assume_new env tr s

/-- FswSessionIterator::start (src/lib.rs lines 642-651): if the
session was already taken, return untouched (started stays as it was);
otherwise move it into a spawned thread (its blocking start_monitor
runs there, outside this state) and mark the iterator started. -/
def FswSessionIterator.start (it : FswSessionIterator) : FswSessionIterator :=
  match it.session with
  | none => it
  | some _ => { it with session := none, started := true }

/-- Outcome of Iterator::next: Some item, None (exhausted), or the
state in which the underlying recv blocks awaiting the producer. -/
inductive NextOutcome
  | item (e : FswEvent)
  | exhausted
  | blocked
deriving DecidableEq, Repr

/-- Iterator::next for FswSessionIterator (src/lib.rs lines 657-662):
start on the first call, then rx.recv().ok(). -/
def FswSessionIterator.next (it0 : FswSessionIterator) :
    NextOutcome × FswSessionIterator :=
  let it := if !it0.started then it0.start else it0
  match Channel.recv it.rx with
  | (.item e, ch) => (.item e, { it with rx := ch })
  | (.closed, ch) => (.exhausted, { it with rx := ch })
  | (.blocked, ch) => (.blocked, { it with rx := ch })

/-- One advance of the iterator state. -/
def nextIter (it : FswSessionIterator) : FswSessionIterator :=
  (FswSessionIterator.next it).2

/-! ### Concrete inputs used by witnesses and counterexamples -/

/-- An environment in which every foreign call succeeds and every
session handle is 1. -/
def envOk : FswEnv := ⟨fun _ => 1, fun _ _ => FSW_OK⟩

/-- An environment in which fsw_set_callback fails with
FSW_ERR_MEMORY and every other call succeeds. -/
def envCbFail : FswEnv :=
  ⟨fun _ => 1, fun _ c =>
    match c with
    | .setCallback _ => FSW_ERR_MEMORY
    | _ => FSW_OK⟩

/-- An environment in which fsw_add_property fails with
FSW_ERR_INVALID_PROPERTY and every other call succeeds. -/
def envPropFail : FswEnv :=
  ⟨fun _ => 1, fun _ c =>
    match c with
    | .addProperty _ _ _ => FSW_ERR_INVALID_PROPERTY
    | _ => FSW_OK⟩

/-- A fresh session on handle 1 with both flags unset. -/
def sessionZero : FswSession := ⟨1, false, false⟩

/-- A sample event. -/
def evA : FswEvent := ⟨[97], 0, [.Created]⟩

/-- A sample foreign event batch of two events. -/
def cevs : List fsw_cevent :=
  [⟨[97], 5, [.Created]⟩, ⟨[98], 6, [.Updated, .IsFile]⟩]

/-- A sample builder: two paths, one property, overflow and recursive
set, one event-type filter, one path filter. -/
def builderA : FswSessionBuilder :=
  { paths := [[97], [98, 99]]
    monitor_type := .SystemDefault
    properties := [([110], [118])]
    overflow := some true
    latency := none
    recursive := some false
    directory_only := none
    follow_symlinks := none
    event_type_filters := [.Created]
    filters := [⟨[100], .Include, true, false⟩] }

/-! ## Helper lemmas -/

theorem add_path_flags (env : FswEnv) (tr : List FCall) (s : FswSession)
    (p : List Nat) :
    (FswSession.add_path env tr s p).2.2.callback_set = s.callback_set ∧
    (FswSession.add_path env tr s p).2.2.handle = s.handle ∧
    (FswSession.add_path env tr s p).2.2.path_added =
      (s.path_added || resultOk (FswSession.add_path env tr s p).1) := by
  unfold FswSession.add_path
  cases hcs : cstringNew (utf8Lossy p) with
  | none => simp [hcs, resultOk]
  | some c =>
      simp only [hcs]
      cases hro : resultOk (map_result () (env.status tr (.addPath s.handle c))) <;>
        simp [hro]

theorem set_callback_flags (env : FswEnv) (tr : List FCall) (s : FswSession) :
    (FswSession.set_callback env tr s).2.2.path_added = s.path_added ∧
    (FswSession.set_callback env tr s).2.2.handle = s.handle ∧
    (FswSession.set_callback env tr s).2.2.callback_set =
      (s.callback_set || resultOk (FswSession.set_callback env tr s).1) := by
  unfold FswSession.set_callback
  cases hro : resultOk (map_result () (env.status tr (.setCallback s.handle))) <;>
    simp [hro]

/-! ## Claim C1 -/

/-- Claim C1: start_monitor returns the distinguished
MissingRequiredParameters error and emits no foreign call whenever one
of the two flags is unset; with both flags set it emits the foreign
start exactly once and returns its mapped status. -/
theorem start_monitor_guard (env : FswEnv) (tr : List FCall) (s : FswSession) :
    (s.callback_set = false ∨ s.path_added = false →
      FswSession.start_monitor env tr s =
        (.error .MissingRequiredParameters, [], s)) ∧
    (s.callback_set = true → s.path_added = true →
      FswSession.start_monitor env tr s =
        (map_result () (env.status tr (.startMonitor s.handle)),
         [FCall.startMonitor s.handle], s) ∧
      (FswSession.start_monitor env tr s).2.1.count
        (FCall.startMonitor s.handle) = 1) := by
  cases hc : s.callback_set <;> cases hp : s.path_added <;>
    simp [FswSession.start_monitor, FswSession._start_monitor, hc, hp,
      List.count_cons]

/-- Witness for C1: a session with both flags set, in the
all-successful environment, starts with exactly one foreign call. -/
theorem start_monitor_guard_witness :
    (FswSession.mk 1 true true).callback_set = true ∧
    (FswSession.mk 1 true true).path_added = true ∧
    FswSession.start_monitor envOk [] (FswSession.mk 1 true true) =
      (.ok (), [FCall.startMonitor 1], FswSession.mk 1 true true) ∧
    (FswSession.start_monitor envOk [] (FswSession.mk 1 true true)).2.1.count
      (FCall.startMonitor 1) = 1 := by
  have h := (start_monitor_guard envOk [] (FswSession.mk 1 true true)).2 rfl rfl
  exact ⟨rfl, rfl, h.1, h.2⟩

/-! ## Claim C2 -/

/-- Claim C2: status classification is total (every integer maps to
exactly one kind), each of the fifteen matched foreign constants maps
to its corresponding kind, and every other integer maps to
UnknownError. -/
theorem fromStatus_total_classification :
    (∀ s : FSW_STATUS, ∃! k : FswStatus, FswStatus.fromStatus s = k) ∧
    (FswStatus.fromStatus FSW_OK = .Ok ∧
     FswStatus.fromStatus FSW_ERR_SESSION_UNKNOWN = .SessionUnknown ∧
     FswStatus.fromStatus FSW_ERR_MONITOR_ALREADY_EXISTS = .MonitorAlreadyExists ∧
     FswStatus.fromStatus FSW_ERR_MEMORY = .Memory ∧
     FswStatus.fromStatus FSW_ERR_UNKNOWN_MONITOR_TYPE = .UnknownMonitorType ∧
     FswStatus.fromStatus FSW_ERR_CALLBACK_NOT_SET = .CallbackNotSet ∧
     FswStatus.fromStatus FSW_ERR_PATHS_NOT_SET = .PathsNotSet ∧
     FswStatus.fromStatus FSW_ERR_MISSING_CONTEXT = .MissingContext ∧
     FswStatus.fromStatus FSW_ERR_INVALID_PATH = .InvalidPath ∧
     FswStatus.fromStatus FSW_ERR_INVALID_CALLBACK = .InvalidCallback ∧
     FswStatus.fromStatus FSW_ERR_INVALID_LATENCY = .InvalidLatency ∧
     FswStatus.fromStatus FSW_ERR_INVALID_REGEX = .InvalidRegex ∧
     FswStatus.fromStatus FSW_ERR_MONITOR_ALREADY_RUNNING = .MonitorAlreadyRunning ∧
     FswStatus.fromStatus FSW_ERR_UNKNOWN_VALUE = .UnknownValue ∧
     FswStatus.fromStatus FSW_ERR_INVALID_PROPERTY = .InvalidProprety) ∧
    (∀ s : FSW_STATUS,
      s ∉ [FSW_OK, FSW_ERR_SESSION_UNKNOWN, FSW_ERR_MONITOR_ALREADY_EXISTS,
        FSW_ERR_MEMORY, FSW_ERR_UNKNOWN_MONITOR_TYPE, FSW_ERR_CALLBACK_NOT_SET,
        FSW_ERR_PATHS_NOT_SET, FSW_ERR_MISSING_CONTEXT, FSW_ERR_INVALID_PATH,
        FSW_ERR_INVALID_CALLBACK, FSW_ERR_INVALID_LATENCY, FSW_ERR_INVALID_REGEX,
        FSW_ERR_MONITOR_ALREADY_RUNNING, FSW_ERR_UNKNOWN_VALUE,
        FSW_ERR_INVALID_PROPERTY] →
      FswStatus.fromStatus s = .UnknownError) := by
  refine ⟨fun s => ⟨FswStatus.fromStatus s, rfl, fun y hy => hy.symm⟩, by decide, ?_⟩
  intro s hs
  simp only [List.mem_cons, List.not_mem_nil, or_false, not_or] at hs
  obtain ⟨h1, h2, h3, h4, h5, h6, h7, h8, h9, h10, h11, h12, h13, h14, h15⟩ := hs
  unfold FswStatus.fromStatus
  rw [if_neg h1, if_neg h2, if_neg h3, if_neg h4, if_neg h5, if_neg h6,
    if_neg h7, if_neg h8, if_neg h9, if_neg h10, if_neg h11, if_neg h12,
    if_neg h13, if_neg h14, if_neg h15]

/-- Witness for C2: the integer 3 is none of the fifteen matched
constants and classifies as UnknownError. -/
theorem fromStatus_total_classification_witness :
    (3 : FSW_STATUS) ∉ [FSW_OK, FSW_ERR_SESSION_UNKNOWN,
      FSW_ERR_MONITOR_ALREADY_EXISTS, FSW_ERR_MEMORY,
      FSW_ERR_UNKNOWN_MONITOR_TYPE, FSW_ERR_CALLBACK_NOT_SET,
      FSW_ERR_PATHS_NOT_SET, FSW_ERR_MISSING_CONTEXT, FSW_ERR_INVALID_PATH,
      FSW_ERR_INVALID_CALLBACK, FSW_ERR_INVALID_LATENCY, FSW_ERR_INVALID_REGEX,
      FSW_ERR_MONITOR_ALREADY_RUNNING, FSW_ERR_UNKNOWN_VALUE,
      FSW_ERR_INVALID_PROPERTY] ∧
    FswStatus.fromStatus 3 = .UnknownError :=
  ⟨by decide, fromStatus_total_classification.2.2 3 (by decide)⟩

/-! ## Claim C4 -/

/-- Claim C4: the two tracking booleans are monotonic and flip only on
the corresponding successful call: add_path leaves callback_set alone
and sets path_added exactly when its result is ok (so it is unchanged
on error and never cleared), set_callback symmetrically, and every
other session operation leaves the session state untouched. -/
theorem flags_monotonic (env : FswEnv) (tr : List FCall) (s : FswSession)
    (p nm vl : List Nat) (bv : Bool) (lat : Int) (ef : FswEventFlag)
    (fl : FswMonitorFilter) :
    ((FswSession.add_path env tr s p).2.2.callback_set = s.callback_set ∧
     (FswSession.add_path env tr s p).2.2.handle = s.handle ∧
     (FswSession.add_path env tr s p).2.2.path_added =
       (s.path_added || resultOk (FswSession.add_path env tr s p).1)) ∧
    ((FswSession.set_callback env tr s).2.2.path_added = s.path_added ∧
     (FswSession.set_callback env tr s).2.2.handle = s.handle ∧
     (FswSession.set_callback env tr s).2.2.callback_set =
       (s.callback_set || resultOk (FswSession.set_callback env tr s).1)) ∧
    (FswSession.add_property env tr s nm vl).2.2 = s ∧
    (FswSession.set_allow_overflow env tr s bv).2.2 = s ∧
    (FswSession.set_latency env tr s lat).2.2 = s ∧
    (FswSession.set_recursive env tr s bv).2.2 = s ∧
    (FswSession.set_directory_only env tr s bv).2.2 = s ∧
    (FswSession.set_follow_symlinks env tr s bv).2.2 = s ∧
    (FswSession.add_event_type_filter env tr s ef).2.2 = s ∧
    (FswSession.add_filter env tr s fl).2.2 = s ∧
    (FswSession.start_monitor env tr s).2.2 = s ∧
    (FswSession.start_monitor_unchecked env tr s).2.2 = s ∧
    (FswSession.destroy_session env tr s).2.2 = s := by
  refine ⟨add_path_flags env tr s p, set_callback_flags env tr s, ?_, rfl, rfl,
    rfl, rfl, rfl, rfl, ?_, ?_, rfl, rfl⟩
  · unfold FswSession.add_property
    cases cstringNew nm <;> cases cstringNew vl <;> rfl
  · unfold FswSession.add_filter
    cases cstringNew fl.text <;> simp
  · unfold FswSession.start_monitor FswSession._start_monitor
    cases s.callback_set <;> cases s.path_added <;> simp

/-! ## Claim C9 -/

/-- Claim C9: distinct event-kind flags carry distinct bit patterns,
and the discriminants are exactly NoOp = 0, PlatformSpecific = 1 and
the single bits 1 shifted left by 1 through 13, so a flag value built
from a known pattern re-serializes to exactly those bits. -/
theorem eventFlag_bits_roundtrip :
    (∀ f g : FswEventFlag, f ≠ g → FswEventFlag.bits f ≠ FswEventFlag.bits g) ∧
    (FswEventFlag.bits .NoOp = 0 ∧
     FswEventFlag.bits .PlatformSpecific = 1 ∧
     FswEventFlag.bits .Created = 1 <<< 1 ∧
     FswEventFlag.bits .Updated = 1 <<< 2 ∧
     FswEventFlag.bits .Removed = 1 <<< 3 ∧
     FswEventFlag.bits .Renamed = 1 <<< 4 ∧
     FswEventFlag.bits .OwnerModified = 1 <<< 5 ∧
     FswEventFlag.bits .AttributeModified = 1 <<< 6 ∧
     FswEventFlag.bits .MovedFrom = 1 <<< 7 ∧
     FswEventFlag.bits .MovedTo = 1 <<< 8 ∧
     FswEventFlag.bits .IsFile = 1 <<< 9 ∧
     FswEventFlag.bits .IsDir = 1 <<< 10 ∧
     FswEventFlag.bits .IsSymLink = 1 <<< 11 ∧
     FswEventFlag.bits .Link = 1 <<< 12 ∧
     FswEventFlag.bits .Overflow = 1 <<< 13) := by
  exact ⟨by decide, by decide⟩

/-- Witness for C9: two concrete distinct flags have distinct bits. -/
theorem eventFlag_bits_roundtrip_witness :
    FswEventFlag.Created ≠ FswEventFlag.Updated ∧
    FswEventFlag.bits .Created ≠ FswEventFlag.bits .Updated :=
  ⟨by decide, eventFlag_bits_roundtrip.1 .Created .Updated (by decide)⟩

/-! ## Claim C5 -/

/-- Claim C5: a path whose textual (lossy) form contains an embedded
NUL makes add_path return the NulError before any foreign call with
the session unchanged, and likewise for add_property's name and value
and for add_filter's pattern text. -/
theorem nul_rejected_before_foreign_call (env : FswEnv) (tr : List FCall)
    (s : FswSession) (p nm vl : List Nat) (fl : FswMonitorFilter) :
    ((0 : Nat) ∈ utf8Lossy p →
      FswSession.add_path env tr s p =
        (.error (.NulError (utf8Lossy p)), [], s)) ∧
    ((0 : Nat) ∈ nm →
      FswSession.add_property env tr s nm vl =
        (.error (.NulError nm), [], s)) ∧
    ((0 : Nat) ∉ nm → (0 : Nat) ∈ vl →
      FswSession.add_property env tr s nm vl =
        (.error (.NulError vl), [], s)) ∧
    ((0 : Nat) ∈ fl.text →
      FswSession.add_filter env tr s fl =
        (.error (.NulError fl.text), [], s)) := by
  refine ⟨fun h => ?_, fun h => ?_, fun hn h => ?_, fun h => ?_⟩
  · simp [FswSession.add_path, cstringNew, h]
  · simp [FswSession.add_property, cstringNew, h]
  · simp [FswSession.add_property, cstringNew, h, hn]
  · simp [FswSession.add_filter, cstringNew, h]

/-- Witness for C5: the two-byte path 'h' NUL is rejected by add_path
with no foreign call, in the all-successful environment. -/
theorem nul_rejected_before_foreign_call_witness :
    (0 : Nat) ∈ utf8Lossy [104, 0] ∧
    FswSession.add_path envOk [] sessionZero [104, 0] =
      (.error (.NulError (utf8Lossy [104, 0])), [], sessionZero) := by
  have h : (0 : Nat) ∈ utf8Lossy [104, 0] := by decide
  exact ⟨h, (nul_rejected_before_foreign_call envOk [] sessionZero [104, 0]
    [] [] ⟨[], .Include, true, true⟩).1 h⟩

/-! ## Claim C6

The claim as stated is false on the code: FswSessionIterator::new does
propagate the failure of the internal set_callback, but assume_new
(the construction used by into_iter) binds the result of adapt_session
to the wildcard and drops it, producing a plain iterator that carries
no error at all.  The counterexample exhibits an environment in which
fsw_set_callback fails while assume_new still returns an ordinary
iterator (with the callback flag still unset) rather than any report
of the failure. -/

theorem map_result_error (st : FSW_STATUS)
    (h : FswStatus.fromStatus st ≠ .Ok) :
    map_result () st = .error (.FromFsw (FswStatus.fromStatus st)) := by
  unfold map_result
  split
  next heq => exact absurd heq h
  next s heq => rfl

theorem map_result_never_nul {α : Type} (ret : α) (st : FSW_STATUS)
    (bs : List Nat) : map_result ret st ≠ .error (.NulError bs) := by
  unfold map_result
  split <;> simp

/-- Counterexample for C6: with fsw_set_callback failing (FSW_ERR_MEMORY),
adapt_session reports the error, yet assume_new returns a plain
iterator and the error value appears nowhere in its result — the
failure of the internal set_callback is discarded, not reported. -/
theorem assume_new_discards_failure :
    (FswSessionIterator.adapt_session envCbFail [] sessionZero).1 =
      .error (.FromFsw .Memory) ∧
    FswSessionIterator.assume_new envCbFail [] sessionZero =
      (⟨some sessionZero, ⟨[], true⟩, false⟩, [FCall.setCallback 1]) := by
  exact ⟨rfl, rfl⟩

/-- Claim C6 as amended: every foreign call's failure is reported
through the mapped status, FswSessionIterator::new reports the failure
of the internal set_callback, but — besides the implicit destruction on
drop — assume_new (used by into_iter) is a second silent spot: it
returns the iterator built from whatever adapt_session left behind,
unconditionally. -/
theorem failures_reported_except_drop_and_into_iter (env : FswEnv)
    (tr : List FCall) (s : FswSession) (st : FSW_STATUS) :
    (∀ e, (FswSessionIterator.adapt_session env tr s).1 = .error e →
      (FswSessionIterator.new env tr s).1 = .error e) ∧
    (FswSessionIterator.assume_new env tr s =
      (FswSessionIterator.create
        (FswSessionIterator.adapt_session env tr s).2.2 ⟨[], true⟩,
       (FswSessionIterator.adapt_session env tr s).2.1)) ∧
    (FswStatus.fromStatus st ≠ .Ok →
      map_result () st = .error (.FromFsw (FswStatus.fromStatus st))) ∧
    (FswSession.dropSession env tr s =
      [FCall.destroySession s.handle]) := by
  refine ⟨fun e he => ?_, rfl, map_result_error st, rfl⟩
  simp [FswSessionIterator.new, he]

/-- Witness for C6 (amended): in the environment where fsw_set_callback
fails with FSW_ERR_MEMORY, new reports exactly that error. -/
theorem failures_reported_witness :
    (FswSessionIterator.adapt_session envCbFail [] sessionZero).1 =
      .error (.FromFsw .Memory) ∧
    (FswSessionIterator.new envCbFail [] sessionZero).1 =
      .error (.FromFsw .Memory) := by
  have h : (FswSessionIterator.adapt_session envCbFail [] sessionZero).1 =
      .error (.FromFsw .Memory) := rfl
  exact ⟨h, (failures_reported_except_drop_and_into_iter envCbFail []
    sessionZero 0).1 _ h⟩

/-! ## Claim C7

The claim as stated is false on the code: std::sync::mpsc delivers the
already-buffered events even after every sender is gone, so with the
producer side gone but an event still queued, next yields that item,
not "no item".  The amended claim holds: once the producer side is
gone AND the queue has been drained, next returns no item immediately
(never the blocking state), and every subsequent call does the same. -/

theorem start_keeps_rx (it : FswSessionIterator) :
    (FswSessionIterator.start it).rx = it.rx := by
  unfold FswSessionIterator.start
  cases it.session <;> rfl

theorem next_closed_empty (it : FswSessionIterator)
    (h1 : it.rx.buf = []) (h2 : it.rx.senderAlive = false) :
    (FswSessionIterator.next it).1 = .exhausted ∧
    (FswSessionIterator.next it).2.rx.buf = [] ∧
    (FswSessionIterator.next it).2.rx.senderAlive = false := by
  obtain ⟨sess, rx, started⟩ := it
  obtain ⟨buf, alive⟩ := rx
  dsimp only at h1 h2
  subst h1
  subst h2
  cases sess <;> cases started <;> exact ⟨rfl, rfl, rfl⟩

/-- Claim C7 as amended: once the producer side of the channel is gone
and the buffered events are drained, every (iterated) call of next
immediately yields the no-item outcome — in particular never the
blocking one — and the channel stays closed and empty. -/
theorem iterator_exhausted_forever (k : Nat) (it : FswSessionIterator)
    (h1 : it.rx.buf = []) (h2 : it.rx.senderAlive = false) :
    (FswSessionIterator.next (nextIter^[k] it)).1 = NextOutcome.exhausted ∧
    (FswSessionIterator.next (nextIter^[k] it)).1 ≠ NextOutcome.blocked ∧
    (nextIter^[k] it).rx.buf = [] ∧
    (nextIter^[k] it).rx.senderAlive = false := by
  induction k generalizing it with
  | zero =>
      simp only [Function.iterate_zero_apply]
      have h := next_closed_empty it h1 h2
      refine ⟨h.1, ?_, h1, h2⟩
      rw [h.1]
      simp
  | succ n ih =>
      rw [Function.iterate_succ_apply]
      have h := next_closed_empty it h1 h2
      exact ih (nextIter it) h.2.1 h.2.2

/-- Witness for C7 (amended): a drained, closed iterator still returns
the no-item outcome on its third call of next. -/
theorem iterator_exhausted_forever_witness :
    (FswSessionIterator.mk none ⟨[], false⟩ true).rx.buf = [] ∧
    (FswSessionIterator.mk none ⟨[], false⟩ true).rx.senderAlive = false ∧
    (FswSessionIterator.next (nextIter^[2] ⟨none, ⟨[], false⟩, true⟩)).1 =
      NextOutcome.exhausted := by
  have h := iterator_exhausted_forever 2 ⟨none, ⟨[], false⟩, true⟩ rfl rfl
  exact ⟨rfl, rfl, h.1⟩

/-- Counterexample for C7: the producer side is gone (senderAlive is
false) but one event is still buffered; next yields that item, not
"no item". -/
theorem closed_channel_yields_buffered_item :
    (FswSessionIterator.mk none ⟨[evA], false⟩ true).rx.senderAlive = false ∧
    (FswSessionIterator.next ⟨none, ⟨[evA], false⟩, true⟩).1 =
      NextOutcome.item evA := by
  exact ⟨rfl, rfl⟩

/-! ## Claim C8 -/

theorem foldl_send (es : List FswEvent) (ch : Channel) :
    es.foldl Channel.send ch = { ch with buf := ch.buf ++ es } := by
  induction es generalizing ch with
  | nil => simp
  | cons e r ih =>
      rw [List.foldl_cons, ih]
      simp [Channel.send, List.append_assoc]

/-- Claim C8: the trampoline turns a foreign batch of N events into
exactly N owned records, the i-th record copying the i-th foreign
event's path (lossily decoded), timestamp and flag sequence; the
iterator's internal callback appends those records to the channel in
that same order, and the channel hands items out front-first, so the
consumer sees exactly the delivery order. -/
theorem trampoline_preserves_batch_order (evs : List fsw_cevent)
    (ch : Channel) (i : Nat) (e : FswEvent) (rest : List FswEvent)
    (alive : Bool) :
    (FswSession.callback_wrapper evs).length = evs.length ∧
    (FswSession.callback_wrapper evs)[i]? =
      (evs[i]?).map
        (fun x => { path := utf8Lossy x.path, evt_time := x.evt_time,
                    flags := x.flags }) ∧
    iterCallback (FswSession.callback_wrapper evs) ch =
      { ch with buf := ch.buf ++ FswSession.callback_wrapper evs } ∧
    Channel.recv ⟨e :: rest, alive⟩ = (.item e, ⟨rest, alive⟩) := by
  refine ⟨List.length_map _ _, ?_, foldl_send _ ch, rfl⟩
  simp [FswSession.callback_wrapper]

/-- Witness for C8: a concrete two-event foreign batch is marshalled
into two records and forwarded in order. -/
theorem trampoline_preserves_batch_order_witness :
    (FswSession.callback_wrapper cevs).length = 2 ∧
    (FswSession.callback_wrapper cevs)[1]? =
      some ⟨[98], 6, [.Updated, .IsFile]⟩ ∧
    iterCallback (FswSession.callback_wrapper cevs) ⟨[], true⟩ =
      ⟨[⟨[97], 5, [.Created]⟩, ⟨[98], 6, [.Updated, .IsFile]⟩], true⟩ := by
  have h := trampoline_preserves_batch_order cevs ⟨[], true⟩ 1 evA [] true
  exact ⟨h.1.trans (by decide), h.2.1.trans (by decide),
    h.2.2.1.trans (by decide)⟩

/-! ## UTF-8 lemmas for claim C10 -/

theorem utf8Step_replacement (t : List Nat) :
    utf8Step (239 :: 191 :: 189 :: t) = (true, 3) := rfl

theorem stepTail2_pos (lo hi : Nat) (l : List Nat) :
    1 ≤ (stepTail2 lo hi l).2 := by
  unfold stepTail2
  split <;> first | (split_ifs <;> norm_num) | norm_num

theorem stepTail3_pos (lo hi : Nat) (l : List Nat) :
    1 ≤ (stepTail3 lo hi l).2 := by
  unfold stepTail3
  split <;> first | (split_ifs <;> norm_num) | norm_num

theorem utf8Step_pos (b : Nat) (rest : List Nat) :
    1 ≤ (utf8Step (b :: rest)).2 := by
  simp only [utf8Step]
  split_ifs <;> first
    | exact stepTail2_pos _ _ _
    | exact stepTail3_pos _ _ _
    | (split <;> first | (split_ifs <;> norm_num) | norm_num)
    | norm_num

/-- The lossy decoder never introduces a NUL byte: its output bytes
either come from the input or belong to the replacement character. -/
theorem utf8LossyGo_no_nul :
    ∀ (fuel : Nat) (p : List Nat), (0 : Nat) ∉ p →
      (0 : Nat) ∉ utf8LossyGo fuel p := by
  intro fuel
  induction fuel with
  | zero => intro p hp; simp [utf8LossyGo]
  | succ n ih =>
      intro p hp
      cases p with
      | nil => simp [utf8LossyGo]
      | cons b rest =>
          have hp0 : (0 : Nat) ∉ rest.drop ((utf8Step (b :: rest)).2 - 1) :=
            fun hm => hp (List.mem_cons_of_mem b (List.mem_of_mem_drop hm))
          cases hok : (utf8Step (b :: rest)).1
          · simp only [utf8LossyGo, hok, Bool.false_eq_true, if_false,
              List.mem_cons]
            intro h
            rcases h with h | h | h | h
            · exact absurd h (by norm_num)
            · exact absurd h (by norm_num)
            · exact absurd h (by norm_num)
            · exact ih _ hp0 h
          · simp only [utf8LossyGo, hok, if_true, List.mem_append]
            intro h
            rcases h with h | h
            · exact hp (List.mem_of_mem_take h)
            · exact ih _ hp0 h

theorem utf8Lossy_no_nul (p : List Nat) (hp : (0 : Nat) ∉ p) :
    (0 : Nat) ∉ utf8Lossy p :=
  utf8LossyGo_no_nul p.length p hp

/-- A byte list fixed by the lossy decoder is well-formed UTF-8 (with
matching fuel). -/
theorem utf8LossyGo_fixed_valid :
    ∀ (fuel : Nat) (p : List Nat), p.length ≤ fuel →
      utf8LossyGo fuel p = p → validUtf8Go fuel p = true := by
  intro fuel
  induction fuel with
  | zero =>
      intro p hlen _
      have : p = [] := List.eq_nil_of_length_eq_zero (Nat.le_zero.mp hlen)
      subst this
      rfl
  | succ n ih =>
      intro p hlen heq
      cases p with
      | nil => rfl
      | cons b rest =>
          have hpos : 1 ≤ (utf8Step (b :: rest)).2 := utf8Step_pos b rest
          have hlen2 : (rest.drop ((utf8Step (b :: rest)).2 - 1)).length ≤ n := by
            have h1 : rest.length ≤ n := by simpa using hlen
            calc (rest.drop ((utf8Step (b :: rest)).2 - 1)).length
                = rest.length - ((utf8Step (b :: rest)).2 - 1) :=
                  List.length_drop _ _
              _ ≤ rest.length := Nat.sub_le _ _
              _ ≤ n := h1
          cases hok : (utf8Step (b :: rest)).1
          · -- replacement branch: the input must then start with the
            -- replacement character itself, which the decoder accepts,
            -- contradicting the failed step.
            simp only [utf8LossyGo, hok, Bool.false_eq_true, if_false] at heq
            injection heq with hb heq2
            subst hb
            rw [← heq2] at hok
            rw [utf8Step_replacement] at hok
            exact absurd hok (by decide)
          · simp only [utf8LossyGo, hok, if_true] at heq
            have hdrop : (b :: rest).drop ((utf8Step (b :: rest)).2) =
                rest.drop ((utf8Step (b :: rest)).2 - 1) := by
              conv =>
                lhs
                rw [← Nat.succ_pred_eq_of_pos hpos]
              rw [List.drop_succ_cons, Nat.pred_eq_sub_one]
            have hsplit : (b :: rest).take ((utf8Step (b :: rest)).2) ++
                rest.drop ((utf8Step (b :: rest)).2 - 1) = b :: rest := by
              rw [← hdrop]
              exact List.take_append_drop _ _
            have hcancel : utf8LossyGo n
                (rest.drop ((utf8Step (b :: rest)).2 - 1)) =
                rest.drop ((utf8Step (b :: rest)).2 - 1) :=
              List.append_cancel_left (heq.trans hsplit.symm)
            simp only [validUtf8Go, hok, Bool.true_and]
            exact ih _ hlen2 hcancel

/-- A byte list that is not well-formed UTF-8 is changed by the lossy
decoder. -/
theorem utf8Lossy_ne_of_invalid (p : List Nat) (h : validUtf8 p = false) :
    utf8Lossy p ≠ p := by
  intro heq
  have := utf8LossyGo_fixed_valid p.length p le_rfl heq
  rw [validUtf8] at h
  rw [this] at h
  exact Bool.noConfusion h

/-! ## Claim C10 -/

/-- Claim C10: a path that is not valid UTF-8 but contains no NUL is
not rejected by add_path: the conversion silently replaces the invalid
sequences, the foreign call is made with the modified (lossy) path —
which differs from the original bytes — and the result is never the
encoding error, only the mapped foreign status. -/
theorem lossy_path_silently_modified (env : FswEnv) (tr : List FCall)
    (s : FswSession) (p : List Nat) (h1 : validUtf8 p = false)
    (h2 : (0 : Nat) ∉ p) :
    (FswSession.add_path env tr s p).2.1 =
      [FCall.addPath s.handle (utf8Lossy p)] ∧
    utf8Lossy p ≠ p ∧
    (∀ bs, (FswSession.add_path env tr s p).1 ≠ .error (.NulError bs)) ∧
    (FswSession.add_path env tr s p).1 =
      map_result () (env.status tr (.addPath s.handle (utf8Lossy p))) := by
  have hnn : (0 : Nat) ∉ utf8Lossy p := utf8Lossy_no_nul p h2
  have hne := utf8Lossy_ne_of_invalid p h1
  unfold FswSession.add_path
  simp only [cstringNew, if_neg hnn]
  refine ⟨?_, hne, ?_, ?_⟩
  · cases hro : resultOk
      (map_result () (env.status tr (.addPath s.handle (utf8Lossy p)))) <;>
      simp [hro]
  · intro bs
    cases hro : resultOk
      (map_result () (env.status tr (.addPath s.handle (utf8Lossy p)))) <;>
      simp [hro, map_result_never_nul]
  · cases hro : resultOk
      (map_result () (env.status tr (.addPath s.handle (utf8Lossy p)))) <;>
      simp [hro]

/-! ## Machinery for claim C3: runPSteps lemmas -/

theorem runPSteps_cons_ok (env : FswEnv) (tr : List FCall) (c : FCall)
    (ps : List PStep) (h : FswStatus.fromStatus (env.status tr c) = .Ok) :
    runPSteps env tr (.call c :: ps) =
      ((runPSteps env (tr ++ [c]) ps).1,
       c :: (runPSteps env (tr ++ [c]) ps).2) := by
  simp only [runPSteps]
  rw [if_pos h]

theorem runPSteps_cons_err (env : FswEnv) (tr : List FCall) (c : FCall)
    (ps : List PStep) (h : ¬ FswStatus.fromStatus (env.status tr c) = .Ok) :
    runPSteps env tr (.call c :: ps) =
      (.error (.FromFsw (FswStatus.fromStatus (env.status tr c))), [c]) := by
  simp only [runPSteps]
  rw [if_neg h]

theorem isPrefixOf_self {α : Type} [DecidableEq α] (l : List α) :
    l.isPrefixOf l = true := by
  induction l with
  | nil => rfl
  | cons a r ih => simp [List.isPrefixOf, ih]

theorem runPSteps_prefix (env : FswEnv) :
    ∀ (ps : List PStep) (tr : List FCall),
      ((runPSteps env tr ps).2).isPrefixOf (okCalls ps) = true := by
  intro ps
  induction ps with
  | nil => intro tr; rfl
  | cons x rest ih =>
      intro tr
      cases x with
      | nulText bs => rfl
      | call c =>
          by_cases hst : FswStatus.fromStatus (env.status tr c) = .Ok
          · rw [runPSteps_cons_ok env tr c rest hst]
            simp only [okCalls, List.isPrefixOf]
            simp [ih (tr ++ [c])]
          · rw [runPSteps_cons_err env tr c rest hst]
            simp [okCalls, List.isPrefixOf]

theorem runPSteps_ok (env : FswEnv) :
    ∀ (ps : List PStep) (tr : List FCall),
      (runPSteps env tr ps).1 = .ok () →
      (runPSteps env tr ps).2 = okCalls ps ∧ allCallSteps ps = true ∧
        stepsOk env tr (okCalls ps) = true := by
  intro ps
  induction ps with
  | nil => intro tr _; exact ⟨rfl, rfl, rfl⟩
  | cons x rest ih =>
      intro tr h
      cases x with
      | nulText bs => simp [runPSteps] at h
      | call c =>
          by_cases hst : FswStatus.fromStatus (env.status tr c) = .Ok
          · rw [runPSteps_cons_ok env tr c rest hst] at h ⊢
            obtain ⟨h1, h2, h3⟩ := ih (tr ++ [c]) h
            refine ⟨by simp [okCalls, h1], by simp [allCallSteps, h2], ?_⟩
            simp [okCalls, stepsOk, hst, h3]
          · rw [runPSteps_cons_err env tr c rest hst] at h
            exact absurd h (by simp)

theorem runPSteps_error (env : FswEnv) :
    ∀ (ps : List PStep) (tr : List FCall) (e : FswError),
      (runPSteps env tr ps).1 = .error e →
      (∃ pre bs rest, ps = pre.map PStep.call ++ PStep.nulText bs :: rest ∧
        stepsOk env tr pre = true ∧ e = .NulError bs ∧
        (runPSteps env tr ps).2 = pre) ∨
      (∃ pre c rest, ps = pre.map PStep.call ++ PStep.call c :: rest ∧
        stepsOk env tr pre = true ∧
        FswStatus.fromStatus (env.status (tr ++ pre) c) ≠ .Ok ∧
        e = .FromFsw (FswStatus.fromStatus (env.status (tr ++ pre) c)) ∧
        (runPSteps env tr ps).2 = pre ++ [c]) := by
  intro ps
  induction ps with
  | nil => intro tr e h; exact absurd h (by simp [runPSteps])
  | cons x rest ih =>
      intro tr e h
      cases x with
      | nulText bs =>
          left
          refine ⟨[], bs, rest, by simp, rfl, ?_, rfl⟩
          simpa [runPSteps] using h.symm
      | call c =>
          by_cases hst : FswStatus.fromStatus (env.status tr c) = .Ok
          · rw [runPSteps_cons_ok env tr c rest hst] at h ⊢
            rcases ih (tr ++ [c]) e h with
              ⟨pre, bs, r2, hps, hok, he, htr⟩ |
              ⟨pre, c2, r2, hps, hok, hne, he, htr⟩
            · left
              refine ⟨c :: pre, bs, r2, by simp [hps], ?_, he, by simp [htr]⟩
              simp [stepsOk, hst, hok]
            · right
              have hcons : tr ++ c :: pre = (tr ++ [c]) ++ pre := by simp
              refine ⟨c :: pre, c2, r2, by simp [hps], ?_, ?_, ?_, by simp [htr]⟩
              · simp [stepsOk, hst, hok]
              · rw [hcons]; exact hne
              · rw [hcons]; exact he
          · rw [runPSteps_cons_err env tr c rest hst] at h ⊢
            right
            refine ⟨[], c, rest, by simp, rfl, by simpa using hst, ?_, by simp⟩
            simp only [List.append_nil]
            injection h.symm

theorem runPSteps_append_ok (env : FswEnv) :
    ∀ (ps qs : List PStep) (tr : List FCall),
      (runPSteps env tr ps).1 = .ok () →
      runPSteps env tr (ps ++ qs) =
        ((runPSteps env (tr ++ (runPSteps env tr ps).2) qs).1,
         (runPSteps env tr ps).2 ++
           (runPSteps env (tr ++ (runPSteps env tr ps).2) qs).2) := by
  intro ps
  induction ps with
  | nil => intro qs tr _; simp [runPSteps]
  | cons x rest ih =>
      intro qs tr h
      cases x with
      | nulText bs => simp [runPSteps] at h
      | call c =>
          by_cases hst : FswStatus.fromStatus (env.status tr c) = .Ok
          · rw [runPSteps_cons_ok env tr c rest hst] at h
            rw [List.cons_append, runPSteps_cons_ok env tr c (rest ++ qs) hst,
              runPSteps_cons_ok env tr c rest hst, ih qs (tr ++ [c]) h]
            simp [List.append_assoc]
          · rw [runPSteps_cons_err env tr c rest hst] at h
            exact absurd h (by simp)

theorem runPSteps_append_error (env : FswEnv) :
    ∀ (ps qs : List PStep) (tr : List FCall) (e : FswError),
      (runPSteps env tr ps).1 = .error e →
      runPSteps env tr (ps ++ qs) = (.error e, (runPSteps env tr ps).2) := by
  intro ps
  induction ps with
  | nil => intro qs tr e h; exact absurd h (by simp [runPSteps])
  | cons x rest ih =>
      intro qs tr e h
      cases x with
      | nulText bs =>
          simp only [runPSteps] at h
          injection h with h1
          subst h1
          rfl
      | call c =>
          by_cases hst : FswStatus.fromStatus (env.status tr c) = .Ok
          · rw [runPSteps_cons_ok env tr c rest hst] at h ⊢
            rw [List.cons_append, runPSteps_cons_ok env tr c (rest ++ qs) hst,
              ih qs (tr ++ [c]) e h]
          · rw [runPSteps_cons_err env tr c rest hst] at h ⊢
            injection h with h1
            subst h1
            rw [List.cons_append, runPSteps_cons_err env tr c (rest ++ qs) hst]

/-! ## Machinery for claim C3: simulation of each configuration step -/

theorem map_result_ok_of (st : FSW_STATUS)
    (h : FswStatus.fromStatus st = .Ok) : map_result () st = .ok () := by
  unfold map_result
  rw [h]

theorem sim_single (env : FswEnv) (mk : FSW_HANDLE → FCall) :
    StageSim env
      (fun tr s => (map_result () (env.status tr (mk s.handle)),
        [mk s.handle], s))
      (fun h => [.call (mk h)]) := by
  intro tr s
  by_cases hst : FswStatus.fromStatus (env.status tr (mk s.handle)) = .Ok
  · rw [runPSteps_cons_ok env tr (mk s.handle) [] hst]
    exact ⟨map_result_ok_of _ hst, rfl, rfl, rfl⟩
  · rw [runPSteps_cons_err env tr (mk s.handle) [] hst]
    exact ⟨map_result_error _ hst, rfl, rfl, rfl⟩

theorem sim_add_path (env : FswEnv) (p : List Nat) :
    StageSim env (fun tr s => FswSession.add_path env tr s p) (pathPlan p) := by
  intro tr s
  simp only [FswSession.add_path, pathPlan, cstringNew]
  by_cases hnul : (0 : Nat) ∈ utf8Lossy p
  · rw [if_pos hnul, if_pos hnul]
    exact ⟨rfl, rfl, rfl, rfl⟩
  · rw [if_neg hnul, if_neg hnul]
    dsimp only
    by_cases hst : FswStatus.fromStatus
        (env.status tr (.addPath s.handle (utf8Lossy p))) = .Ok
    · rw [runPSteps_cons_ok env tr _ [] hst]
      rw [map_result_ok_of _ hst]
      exact ⟨rfl, rfl, rfl, rfl⟩
    · rw [runPSteps_cons_err env tr _ [] hst]
      rw [map_result_error _ hst]
      exact ⟨rfl, rfl, rfl, rfl⟩

theorem sim_add_property (env : FswEnv) (nv : List Nat × List Nat) :
    StageSim env
      (fun tr s => FswSession.add_property env tr s nv.1 nv.2)
      (propPlan nv) := by
  intro tr s
  simp only [FswSession.add_property, propPlan, cstringNew]
  by_cases h1 : (0 : Nat) ∈ nv.1
  · rw [if_pos h1, if_pos h1]
    exact ⟨rfl, rfl, rfl, rfl⟩
  · rw [if_neg h1, if_neg h1]
    by_cases h2 : (0 : Nat) ∈ nv.2
    · rw [if_pos h2, if_pos h2]
      exact ⟨rfl, rfl, rfl, rfl⟩
    · rw [if_neg h2, if_neg h2]
      dsimp only
      exact sim_single env (fun h => .addProperty h nv.1 nv.2) tr s

theorem sim_add_filter (env : FswEnv) (f : FswMonitorFilter) :
    StageSim env (fun tr s => FswSession.add_filter env tr s f)
      (filterPlan f) := by
  intro tr s
  simp only [FswSession.add_filter, filterPlan, cstringNew]
  by_cases h1 : (0 : Nat) ∈ f.text
  · rw [if_pos h1, if_pos h1]
    exact ⟨rfl, rfl, rfl, rfl⟩
  · rw [if_neg h1, if_neg h1]
    dsimp only
    exact sim_single env
      (fun h => .addFilter h f.text f.filter_type f.case_sensitive f.extended)
      tr s

theorem sim_skip (env : FswEnv) :
    StageSim env skipStage (fun _ => []) :=
  fun _ _ => ⟨rfl, rfl, rfl, rfl⟩

theorem sim_opt {α : Type} (env : FswEnv) (o : Option α) (f : α → Stage)
    (pl : α → FSW_HANDLE → List PStep)
    (h : ∀ v, StageSim env (f v) (pl v)) :
    StageSim env (optStage o f) (fun hh => optPlan o (fun v => pl v hh)) := by
  cases o with
  | none => exact sim_skip env
  | some v => exact h v

theorem sim_comp (env : FswEnv) (st1 st2 : Stage)
    (p1 p2 : FSW_HANDLE → List PStep)
    (h1 : StageSim env st1 p1) (h2 : StageSim env st2 p2) :
    StageSim env (stageComp st1 st2) (fun h => p1 h ++ p2 h) := by
  intro tr s
  obtain ⟨he1, ht1, hh1, hc1⟩ := h1 tr s
  obtain ⟨he2, ht2, hh2, hc2⟩ := h2 (tr ++ (st1 tr s).2.1) (st1 tr s).2.2
  rw [hh1, ht1] at he2
  rw [hh1, ht1] at ht2
  rw [ht1, hh1] at hh2
  rw [ht1, hc1] at hc2
  simp only [stageComp]
  rcases hst1 : st1 tr s with ⟨r1, em1, s1⟩
  rw [hst1] at he1 ht1 hh1 hc1 he2 ht2 hh2 hc2
  dsimp only at he1 ht1 hh1 hc1 he2 ht2 hh2 hc2 ⊢
  cases r1 with
  | error e =>
      dsimp only
      rw [runPSteps_append_error env (p1 s.handle) (p2 s.handle) tr e he1.symm]
      exact ⟨rfl, ht1, hh1, hc1⟩
  | ok u =>
      cases u
      dsimp only
      rw [runPSteps_append_ok env (p1 s.handle) (p2 s.handle) tr he1.symm]
      rw [ht1]
      exact ⟨he2, by rw [ht2], hh2, hc2⟩

theorem sim_applyAll {α : Type} (env : FswEnv) (stageOf : α → Stage)
    (planOf : α → FSW_HANDLE → List PStep)
    (h : ∀ x, StageSim env (stageOf x) (planOf x)) :
    ∀ xs : List α,
      StageSim env (applyAll stageOf xs) (joinPlans planOf xs) := by
  intro xs
  induction xs with
  | nil => exact fun _ _ => ⟨rfl, rfl, rfl, rfl⟩
  | cons x rest ih => exact sim_comp env _ _ _ _ (h x) ih

theorem sim_buildStage (env : FswEnv) (b : FswSessionBuilder) :
    StageSim env (buildStage env b) (buildPlan b) := by
  unfold buildStage buildPlan
  refine sim_comp env _ _ _ _
    (sim_applyAll env _ _ (fun p => sim_add_path env p) b.paths) ?_
  refine sim_comp env _ _ _ _
    (sim_applyAll env _ _ (fun nv => sim_add_property env nv) b.properties) ?_
  refine sim_comp env _ _ _ _
    (sim_opt env b.overflow _ _
      (fun v => sim_single env (fun h => .setAllowOverflow h v))) ?_
  refine sim_comp env _ _ _ _
    (sim_opt env b.latency _ _
      (fun v => sim_single env (fun h => .setLatency h v))) ?_
  refine sim_comp env _ _ _ _
    (sim_opt env b.recursive _ _
      (fun v => sim_single env (fun h => .setRecursive h v))) ?_
  refine sim_comp env _ _ _ _
    (sim_opt env b.directory_only _ _
      (fun v => sim_single env (fun h => .setDirectoryOnly h v))) ?_
  refine sim_comp env _ _ _ _
    (sim_opt env b.follow_symlinks _ _
      (fun v => sim_single env (fun h => .setFollowSymlinks h v))) ?_
  refine sim_comp env _ _ _ _
    (sim_applyAll env _ _
      (fun f => sim_single env (fun h => .addEventTypeFilter h f))
      b.event_type_filters) ?_
  exact sim_applyAll env _ _ (fun f => sim_add_filter env f) b.filters

/-! ## Claim C3 -/

/-- Claim C3: build performs its foreign calls in exactly the fixed
order given by the plan of the builder — acquire session, each path in
insertion order, each property in iteration order, then the optional
overflow, latency, recursive, directory-only and follow-symlinks
settings, then each event-kind filter and each path filter in
insertion order — the emitted trace is always a prefix of that plan,
on success it is exactly the plan, and on failure the error of the
first failing step (invalid handle, doomed text conversion, or first
non-Ok foreign status) is returned with no foreign call made after the
failing one. -/
theorem build_fixed_order_short_circuit (env : FswEnv)
    (b : FswSessionBuilder) (tr : List FCall) :
    ((FswSessionBuilder.build env b tr).2).isPrefixOf
      (FCall.initSession b.monitor_type ::
        okCalls (buildPlan b (env.initSession b.monitor_type))) = true ∧
    (∀ s, (FswSessionBuilder.build env b tr).1 = .ok s →
      (FswSessionBuilder.build env b tr).2 =
        FCall.initSession b.monitor_type ::
          okCalls (buildPlan b (env.initSession b.monitor_type)) ∧
      allCallSteps (buildPlan b (env.initSession b.monitor_type)) = true ∧
      s.handle = env.initSession b.monitor_type ∧
      s.callback_set = false) ∧
    (∀ e, (FswSessionBuilder.build env b tr).1 = .error e →
      (env.initSession b.monitor_type = FSW_INVALID_HANDLE ∧
        (FswSessionBuilder.build env b tr).2 =
          [FCall.initSession b.monitor_type] ∧
        e = .FromFsw .UnknownError) ∨
      (∃ pre bs rest,
        buildPlan b (env.initSession b.monitor_type) =
          pre.map PStep.call ++ PStep.nulText bs :: rest ∧
        stepsOk env (tr ++ [FCall.initSession b.monitor_type]) pre = true ∧
        e = .NulError bs ∧
        (FswSessionBuilder.build env b tr).2 =
          FCall.initSession b.monitor_type :: pre) ∨
      (∃ pre c rest,
        buildPlan b (env.initSession b.monitor_type) =
          pre.map PStep.call ++ PStep.call c :: rest ∧
        stepsOk env (tr ++ [FCall.initSession b.monitor_type]) pre = true ∧
        FswStatus.fromStatus (env.status
          ((tr ++ [FCall.initSession b.monitor_type]) ++ pre) c) ≠ .Ok ∧
        e = .FromFsw (FswStatus.fromStatus (env.status
          ((tr ++ [FCall.initSession b.monitor_type]) ++ pre) c)) ∧
        (FswSessionBuilder.build env b tr).2 =
          FCall.initSession b.monitor_type :: (pre ++ [c]))) := by
  unfold FswSessionBuilder.build FswSession.new
  by_cases hinv : env.initSession b.monitor_type = FSW_INVALID_HANDLE
  · rw [if_pos hinv]
    refine ⟨by simp [List.isPrefixOf], fun s hs => by simp at hs,
      fun e he => .inl ⟨hinv, rfl, ?_⟩⟩
    simpa using he.symm
  · rw [if_neg hinv]
    dsimp only
    have hsim := sim_buildStage env b
      (tr ++ [FCall.initSession b.monitor_type])
      ⟨env.initSession b.monitor_type, false, false⟩
    obtain ⟨he, ht, hh, hc⟩ := hsim
    simp only at he ht hh hc
    cases hres : (buildStage env b (tr ++ [FCall.initSession b.monitor_type])
        ⟨env.initSession b.monitor_type, false, false⟩).1 with
    | ok u =>
        cases u
        rw [hres] at he
        obtain ⟨h1, h2, h3⟩ := runPSteps_ok env _ _ he.symm
        dsimp only
        refine ⟨?_, fun s hs => ?_, fun e he2 => by simp at he2⟩
        · rw [ht, h1]
          simp [List.isPrefixOf, isPrefixOf_self]
        · injection hs with hs2
          subst hs2
          exact ⟨by rw [ht, h1]; rfl, h2, hh, hc⟩
    | error e =>
        rw [hres] at he
        dsimp only
        refine ⟨?_, fun s hs => by simp at hs, fun e2 he2 => ?_⟩
        · rw [ht]
          have := runPSteps_prefix env
            (buildPlan b (env.initSession b.monitor_type))
            (tr ++ [FCall.initSession b.monitor_type])
          simp [List.isPrefixOf, this]
        · injection he2 with he3
          subst he3
          rcases runPSteps_error env _ _ _ he.symm with
            ⟨pre, bs, rest, hps, hok, heq, htr2⟩ |
            ⟨pre, c, rest, hps, hok, hne, heq, htr2⟩
          · exact .inr (.inl ⟨pre, bs, rest, hps, hok, heq,
              by rw [ht, htr2]; rfl⟩)
          · exact .inr (.inr ⟨pre, c, rest, hps, hok, hne, heq,
              by rw [ht, htr2]; rfl⟩)

/-- Witness for C3: with fsw_add_property failing, the concrete builder
stops right after the property call — both paths were added first, in
order, and nothing after the failing call was invoked. -/
theorem build_fixed_order_short_circuit_witness :
    (FswSessionBuilder.build envPropFail builderA []).2 =
      [FCall.initSession .SystemDefault, FCall.addPath 1 [97],
       FCall.addPath 1 [98, 99], FCall.addProperty 1 [110] [118]] ∧
    (FswSessionBuilder.build envPropFail builderA []).1 =
      .error (.FromFsw .InvalidProprety) ∧
    ((FswSessionBuilder.build envPropFail builderA []).2).isPrefixOf
      (FCall.initSession .SystemDefault :: okCalls (buildPlan builderA 1)) =
      true := by
  refine ⟨rfl, rfl, ?_⟩
  exact (build_fixed_order_short_circuit envPropFail builderA []).1

/-- Witness for C10: the single invalid byte 0xFF is replaced by the
replacement character and passed on to the foreign call. -/
theorem lossy_path_silently_modified_witness :
    validUtf8 [255] = false ∧ (0 : Nat) ∉ [255] ∧
    (FswSession.add_path envOk [] sessionZero [255]).2.1 =
      [FCall.addPath 1 [239, 191, 189]] ∧
    utf8Lossy [255] ≠ [255] ∧
    (FswSession.add_path envOk [] sessionZero [255]).1 = .ok () := by
  have h := lossy_path_silently_modified envOk [] sessionZero [255]
    (by decide) (by decide)
  exact ⟨by decide, by decide, h.1.trans (by decide), h.2.1, h.2.2.2⟩

end Fsw
